import Mathlib

/-!
Verification of the `cached` HTTP response cache (modules `cached/util.py`,
`cached/model.py`, `cached/cache.py`, `cached/adapter.py`) against its
natural-language specification.

The Python source is shallowly embedded:
* byte strings become `List Nat` (one `Nat` per byte);
* streams become explicit lists of the chunks successive reads return;
* dictionaries become association lists looked up by exact key;
* Python exceptions become `Except` errors;
* the filesystem becomes an explicit record of the two directory trees
  (`entries/` and `bodies/`) plus the staging (temporary) file used by
  `FileCache.add`.
-/

namespace Cached

/-- Headers: a Python `dict[str, str]` embedded as an association list.
Lookups are by exact (case-sensitive) key, matching `key in d` / `d[key]`
on a plain `dict`. -/
abbrev Headers := List (String × String)

/-- Lookup `k in d` / `d.get(k)` on a `dict`: first binding for the key, if any. -/
def hFind (h : Headers) (k : String) : Option String :=
  match h with
  | [] => none
  | (k', v) :: rest => if k' = k then some v else hFind rest k

/-- Model of `cached.model.Request`: method, URI and headers (body and HTTP version
are excluded from the model, as in the source). -/
structure Request where
  method : String
  uri : String
  headers : Headers
deriving DecidableEq, Repr

/-- Model of `cached.model.Response` as passed to `add`: status, reason, headers and a
live body stream.  The stream is embedded as the list of chunks that
successive reads of the underlying reader return (each chunk a byte list);
a real blocking reader returns only non-empty chunks until end-of-stream,
after which every read returns the empty chunk. -/
structure Response where
  status : Int
  reason : String
  headers : Headers
  body : List (List Nat)
deriving DecidableEq, Repr

/-- The response part of a cache entry as reconstituted by `FileCache.get`:
its body is a stream over a stored file, embedded as the file's bytes. -/
structure StoredResponse where
  status : Int
  reason : String
  headers : Headers
  body : List Nat
deriving DecidableEq, Repr

/-- Model of `cached.model.CacheEntry` as returned by `FileCache.get`. -/
structure CacheEntry where
  request : Request
  response : StoredResponse
deriving DecidableEq, Repr

/-- Python runtime exceptions that the embedded code can raise. -/
inductive PyErr where
  /-- `AttributeError` (e.g. `[].split` does not exist). -/
  | attributeError
  /-- `TypeError` (e.g. writing a `list` to a binary file object). -/
  | typeError
  /-- The `Exception('I refuse to overwrite a cache entry')` raised by
  `FileCache.add`. -/
  | refuseOverwriteEntry
  /-- The `Exception('I refuse to overwrite an existing response body')`
  raised by `FileCache.add`. -/
  | refuseOverwriteBody
deriving DecidableEq, Repr

/-! ## `cached.util.clamp`

The source is

```
def clamp(value, min, max):
    return sorted((0, value, 20))[1]
```

i.e. the middle element of the sorted triple `(0, value, 20)`; the `min` and
`max` arguments are never consulted. -/

/-- Sorting of a three-element tuple by explicit comparisons (the effect of
Python's `sorted` on a triple). -/
def sort3 (a b c : Int) : Int × Int × Int :=
  if a ≤ b then
    if b ≤ c then (a, b, c)
    else if a ≤ c then (a, c, b)
    else (c, a, b)
  else
    if a ≤ c then (b, a, c)
    else if b ≤ c then (b, c, a)
    else (c, b, a)

/-- Model of `cached.util.clamp`: `sorted((0, value, 20))[1]`.  The `mn` and `mx`
parameters mirror the Python signature `clamp(value, min, max)`. -/
def clamp (value _mn _mx : Int) : Int :=
  (sort3 0 value 20).2.1

/-! ## SHA-256 (`hashlib.sha256(...).hexdigest()`)

`FileCache._get_path` hashes the request URI with SHA-256 and uses the hex
digest.  The algorithm is embedded over `Nat` with explicit reduction
modulo `2^32` where 32-bit overflow matters. -/

/-- Reduction to a 32-bit word. -/
def w32 (x : Nat) : Nat := x % 4294967296

/-- Right rotation of a 32-bit word. -/
def rotr32 (n x : Nat) : Nat := w32 ((x >>> n) ||| (x <<< (32 - n)))

/-- Bitwise complement of a 32-bit word. -/
def not32 (x : Nat) : Nat := x ^^^ 4294967295

/-- The SHA-256 round constants (in decimal). -/
def sha256K : List Nat :=
  [1116352408, 1899447441, 3049323471, 3921009573, 961987163,
   1508970993, 2453635748, 2870763221, 3624381080, 310598401,
   607225278, 1426881987, 1925078388, 2162078206, 2614888103,
   3248222580, 3835390401, 4022224774, 264347078, 604807628,
   770255983, 1249150122, 1555081692, 1996064986, 2554220882,
   2821834349, 2952996808, 3210313671, 3336571891, 3584528711,
   113926993, 338241895, 666307205, 773529912, 1294757372,
   1396182291, 1695183700, 1986661051, 2177026350, 2456956037,
   2730485921, 2820302411, 3259730800, 3345764771, 3516065817,
   3600352804, 4094571909, 275423344, 430227734, 506948616,
   659060556, 883997877, 958139571, 1322822218, 1537002063,
   1747873779, 1955562222, 2024104815, 2227730452, 2361852424,
   2428436474, 2756734187, 3204031479, 3329325298]

/-- The eight 32-bit words of SHA-256 state. -/
structure Hash8 where
  a : Nat
  b : Nat
  c : Nat
  d : Nat
  e : Nat
  f : Nat
  g : Nat
  h : Nat
deriving Repr

/-- The SHA-256 initial hash value (in decimal). -/
def sha256H0 : Hash8 :=
  ⟨1779033703, 3144134277, 1013904242, 2773480762,
   1359893119, 2600822924, 528734635, 1541459225⟩

/-- SHA-256 padding: append `0x80`, zero bytes up to 56 mod 64, then the
message bit length as 8 big-endian bytes. -/
def sha256Pad (msg : List Nat) : List Nat :=
  let bitLen := 8 * msg.length
  let zeroCount := (119 - msg.length % 64) % 64
  msg ++ [0x80] ++ List.replicate zeroCount 0
      ++ (List.range 8).map (fun i => (bitLen >>> (8 * (7 - i))) % 256)

/-- Split a byte list into successive 64-byte blocks. -/
def chunks64 : List Nat → List (List Nat)
  | [] => []
  | b :: rest => (b :: rest).take 64 :: chunks64 ((b :: rest).drop 64)
termination_by l => l.length
decreasing_by
  simp only [List.length_drop, List.length_cons]
  omega

/-- The sixteen big-endian 32-bit words of a 64-byte block. -/
def blockWords (block : List Nat) : List Nat :=
  (List.range 16).map (fun i =>
    block.getD (4 * i) 0 * 16777216 + block.getD (4 * i + 1) 0 * 65536
      + block.getD (4 * i + 2) 0 * 256 + block.getD (4 * i + 3) 0)

/-- Extend sixteen message words to the 64-entry message schedule. -/
def extendSchedule (first16 : List Nat) : List Nat :=
  (List.range 48).foldl (fun ws _ =>
    let n := ws.length
    let w15 := ws.getD (n - 15) 0
    let w2 := ws.getD (n - 2) 0
    let s0 := rotr32 7 w15 ^^^ rotr32 18 w15 ^^^ (w15 >>> 3)
    let s1 := rotr32 17 w2 ^^^ rotr32 19 w2 ^^^ (w2 >>> 10)
    ws ++ [w32 (ws.getD (n - 16) 0 + s0 + ws.getD (n - 7) 0 + s1)]) first16

/-- One SHA-256 compression round over the message schedule `w`. -/
def sha256Compress (st : Hash8) (w : List Nat) : Hash8 :=
  let t := (List.range 64).foldl (fun t i =>
    let s1 := rotr32 6 t.e ^^^ rotr32 11 t.e ^^^ rotr32 25 t.e
    let ch := (t.e &&& t.f) ^^^ (not32 t.e &&& t.g)
    let temp1 := w32 (t.h + s1 + ch + sha256K.getD i 0 + w.getD i 0)
    let s0 := rotr32 2 t.a ^^^ rotr32 13 t.a ^^^ rotr32 22 t.a
    let maj := (t.a &&& t.b) ^^^ (t.a &&& t.c) ^^^ (t.b &&& t.c)
    let temp2 := w32 (s0 + maj)
    ⟨w32 (temp1 + temp2), t.a, t.b, t.c, w32 (t.d + temp1), t.e, t.f, t.g⟩) st
  ⟨w32 (st.a + t.a), w32 (st.b + t.b), w32 (st.c + t.c), w32 (st.d + t.d),
   w32 (st.e + t.e), w32 (st.f + t.f), w32 (st.g + t.g), w32 (st.h + t.h)⟩

/-- SHA-256 of a byte list, as the final eight-word state. -/
def sha256Bytes (msg : List Nat) : Hash8 :=
  (chunks64 (sha256Pad msg)).foldl
    (fun st block => sha256Compress st (extendSchedule (blockWords block)))
    sha256H0

/-- Lowercase hex digit for a value below 16. -/
def hexDigit (n : Nat) : Char :=
  ("0123456789abcdef".data).getD n '0'

/-- A 32-bit word as eight lowercase hex characters (zero-padded). -/
def hex8 (w : Nat) : String :=
  ⟨(List.range 8).map (fun i => hexDigit ((w >>> (4 * (7 - i))) % 16))⟩

/-- Model of `hashlib.sha256(uri.encode('utf-8')).hexdigest()`: the 64-character
lowercase hex digest of the UTF-8 encoding of a string. -/
def sha256hex (s : String) : String :=
  let st := sha256Bytes (s.toUTF8.toList.map UInt8.toNat)
  hex8 st.a ++ hex8 st.b ++ hex8 st.c ++ hex8 st.d
    ++ hex8 st.e ++ hex8 st.f ++ hex8 st.g ++ hex8 st.h

/-! ## `FileCache` path derivation -/

/-- A filesystem path relative to one of the two tree roots, as its list of
components. -/
abbrev PathKey := List String

/-- Model of `FileCache._split_path`: `list(path[:levels]) + [path[levels:]]` — the
first `levels` characters as single-character components followed by the
remainder as the final component. -/
def splitPath (levels : Nat) (path : String) : PathKey :=
  (path.take levels).data.map String.singleton ++ [path.drop levels]

/-- Model of `FileCache._get_path`: the split SHA-256 hex digest of the URI. -/
def getPath (levels : Nat) (uri : String) : PathKey :=
  splitPath levels (sha256hex uri)

/-- Model of `FileCache.__init__`: the stored `__cache_directory_levels`, i.e.
`clamp(cache_directory_levels, 0, 20)`.  (`clamp`'s result is always in
`[0, 20]`, so `toNat` is exact.) -/
def cacheDirectoryLevels (requested : Int) : Nat :=
  (clamp requested 0 20).toNat

/-- The levels argument that `cached.adapter.create` passes to
`FileCache(directory, 5)`. -/
def adapterCreateLevels : Int := 5

/-! ## The filesystem model

`FileCache` works with two directory trees under the cache root — `entries/`
and `bodies/` — plus the temporary staging file created by `add`.  Each tree
is embedded as an association list from relative paths to file contents.
Entry files hold JSON; the embedding represents an entry file's contents
either as `invalid` (text `json.load` rejects) or as a JSON object whose
seven expected fields are each present or absent (`KeyError` on access) —
which is exactly the space of contents the corruption claims range over. -/

/-- The JSON object stored in an entry file, with each field that
`FileCache._load_entry` accesses possibly absent. -/
structure RawEntry where
  reqMethod : Option String
  reqUri : Option String
  reqHeaders : Option Headers
  status : Option Int
  reason : Option String
  resHeaders : Option Headers
  /-- `entry['response']['body']`, the body-tree-relative path string. -/
  bodyRel : Option PathKey
deriving DecidableEq, Repr

/-- Contents of an entry file. -/
inductive EntryFileData where
  /-- Contents that fail to parse as JSON (`json.JSONDecodeError`). -/
  | invalid
  /-- A parsed JSON object of the expected shape. -/
  | record (e : RawEntry)
deriving DecidableEq, Repr

/-- Association-list lookup by path (a file's contents, if the file exists). -/
def fsFind {α : Type} (files : List (PathKey × α)) (k : PathKey) : Option α :=
  match files with
  | [] => none
  | (k', v) :: rest => if k' = k then some v else fsFind rest k

/-- Model of `Path.unlink`: remove the file at `k`. -/
def fsErase {α : Type} (files : List (PathKey × α)) (k : PathKey) :
    List (PathKey × α) :=
  files.filter (fun kv => kv.1 ≠ k)

/-- The filesystem state `FileCache` manipulates. -/
structure FS where
  /-- The `entries/` tree. -/
  entries : List (PathKey × EntryFileData)
  /-- The `bodies/` tree. -/
  bodies : List (PathKey × List Nat)
  /-- The temporary staging file of an in-flight `add` (its bytes so far),
  if one has been created. -/
  staging : Option (List Nat)
deriving DecidableEq, Repr

/-- Outcomes of `FileCache._load_entry`. -/
inductive LoadErr where
  /-- `FileNotFoundError`: no entry file at the derived path. -/
  | fileNotFound
  /-- `CorruptEntry(entry_path)`. -/
  | corrupt (entryPath : PathKey)
deriving DecidableEq, Repr

/-- Model of `cached.cache.FileCacheEntryModel` (with the response fields inlined). -/
structure FileCacheEntryModel where
  entryPath : PathKey
  request : Request
  status : Int
  reason : String
  headers : Headers
  /-- The body file's path (relative to the `bodies/` tree). -/
  bodyPath : PathKey
deriving DecidableEq, Repr

/-- Model of `FileCache._load_entry`: read and decode the entry file at the path
derived from the request URI.  A missing file is `FileNotFoundError`;
undecodable contents or a missing required field (`KeyError`,
`json.JSONDecodeError`) is `CorruptEntry`. -/
def loadEntry (levels : Nat) (fs : FS) (request : Request) :
    Except LoadErr FileCacheEntryModel :=
  let entryPath := getPath levels request.uri
  match fsFind fs.entries entryPath with
  | none => .error .fileNotFound
  | some .invalid => .error (.corrupt entryPath)
  | some (.record e) =>
    match e.reqMethod, e.reqUri, e.reqHeaders, e.status, e.reason,
        e.resHeaders, e.bodyRel with
    | some m, some u, some hs, some st, some rsn, some rhs, some b =>
      .ok ⟨entryPath, ⟨m, u, hs⟩, st, rsn, rhs, b⟩
    | _, _, _, _, _, _, _ => .error (.corrupt entryPath)

/-- Model of `FileCache.get`: load the entry; on `CorruptEntry` unlink the entry file
and miss; on `FileNotFoundError` (from the entry file, or from `open` on
the recorded body file) miss without unlinking anything.  Returns the
result together with the (possibly modified) filesystem. -/
def fileCacheGet (levels : Nat) (fs : FS) (request : Request) :
    Option CacheEntry × FS :=
  match loadEntry levels fs request with
  | .ok m =>
    match fsFind fs.bodies m.bodyPath with
    | some bytes => (some ⟨m.request, ⟨m.status, m.reason, m.headers, bytes⟩⟩, fs)
    | none => (none, fs)
  | .error (.corrupt p) => (none, { fs with entries := fsErase fs.entries p })
  | .error .fileNotFound => (none, fs)

/-- The serialized dictionary `FileCache.add` will write as the entry file. -/
def serializeEntry (request : Request) (response : Response)
    (bodyPath : PathKey) : RawEntry :=
  ⟨some request.method, some request.uri, some request.headers,
   some response.status, some response.reason, some response.headers,
   some bodyPath⟩

/-- The deferred part of an in-flight `FileCache.add`: the returned cache
entry's metadata, the duplicator's remaining source chunks, and the
finalize targets captured by `on_complete`. -/
structure AddPending where
  request : Request
  status : Int
  reason : String
  headers : Headers
  /-- Remaining chunks of the original `response.body` stream. -/
  source : List (List Nat)
  entryPath : PathKey
  bodyPath : PathKey
  serialized : RawEntry
deriving DecidableEq, Repr

/-- Model of `FileCache.add` up to returning the tee-wrapped entry: check for an
existing entry file (fatal), derive the randomized body path from the
`os.urandom(32).hex()` draw `randHex` (fatal if it exists), create the
temporary staging file, and build the deferred state.  An error carries
the filesystem at the raise, which at both raise points is unmodified. -/
def fileCacheAdd (levels : Nat) (randHex : String) (fs : FS)
    (request : Request) (response : Response) :
    Except (PyErr × FS) (FS × AddPending) :=
  let entryPath := getPath levels request.uri
  if (fsFind fs.entries entryPath).isSome then
    .error (.refuseOverwriteEntry, fs)
  else
    let bodyPath := splitPath levels randHex
    if (fsFind fs.bodies bodyPath).isSome then
      .error (.refuseOverwriteBody, fs)
    else
      .ok ({ fs with staging := some [] },
        ⟨request, response.status, response.reason, response.headers,
         response.body, entryPath, bodyPath,
         serializeEntry request response bodyPath⟩)

/-- Append a chunk to the staging file (the tee's `writer.write(chunk)`
while the staging file is in place). -/
def stagingAppend (fs : FS) (c : List Nat) : FS :=
  { fs with staging := fs.staging.map (· ++ c) }

/-- Model of `on_complete` in `FileCache.add`: move the staging file to the permanent
body location, then write the entry record. -/
def finalize (fs : FS) (p : AddPending) : FS :=
  { entries := (p.entryPath, .record p.serialized) :: fs.entries,
    bodies := (p.bodyPath, fs.staging.getD []) :: fs.bodies,
    staging := none }

/-- The consumer's drain loop over the tee returned by `add`: read chunks
until the first zero-length read (end-of-stream), delivering each chunk;
each read also writes the chunk to the staging file, and the zero-length
read triggers `on_complete`.  Returns the bytes delivered to the consumer
and the final filesystem. -/
def drainFrom (fs : FS) (p : AddPending) : List (List Nat) → List Nat × FS
  | [] => ([], finalize (stagingAppend fs []) p)
  | c :: rest =>
    if c = [] then ([], finalize (stagingAppend fs c) p)
    else
      let r := drainFrom (stagingAppend fs c) p rest
      (c ++ r.1, r.2)

/-- Read the entry returned by `add` to end-of-stream. -/
def drainAll (fs : FS) (p : AddPending) : List Nat × FS :=
  drainFrom fs p p.source

/-! ## Filesystem operation traces of an in-flight `add`

For the ordering claim, the filesystem effects of each read of the
duplicator are made explicit as a list of primitive operations, so that
every intermediate filesystem state is observable. -/

/-- A primitive filesystem operation performed during the drain of an
in-flight `add`. -/
inductive FsOp where
  /-- `writer.write(chunk)` — through the staging file handle. -/
  | writeChunk (c : List Nat)
  /-- `shutil.move(temp, body_path)`. -/
  | moveStaging
  /-- `json.dump(serialized, open(entry_path, 'w'))`. -/
  | writeEntry
deriving DecidableEq, Repr

/-- Apply one operation.  `none` embeds a raised exception: moving the
staging file when it no longer exists (`shutil.move` on a missing source).
A `writeChunk` after the move goes through the still-open handle, which
after the rename refers to the permanent body file. -/
def applyOp (p : AddPending) (fs : FS) : FsOp → Option FS
  | .writeChunk c =>
    match fs.staging with
    | some s => some { fs with staging := some (s ++ c) }
    | none =>
      match fsFind fs.bodies p.bodyPath with
      | some b => some { fs with bodies := (p.bodyPath, b ++ c) :: fs.bodies }
      | none => none
  | .moveStaging =>
    match fs.staging with
    | some s => some { fs with bodies := (p.bodyPath, s) :: fs.bodies, staging := none }
    | none => none
  | .writeEntry =>
    some { fs with entries := (p.entryPath, .record p.serialized) :: fs.entries }

/-- Apply a list of operations, stopping at a raised exception. -/
def applyOps (p : AddPending) (fs : FS) : List FsOp → Option FS
  | [] => some fs
  | op :: rest =>
    match applyOp p fs op with
    | none => none
    | some fs' => applyOps p fs' rest

/-- The operations emitted by `n` successive reads of the duplicator whose
underlying reader will return the chunks `source` and then empty chunks
forever: each read writes the obtained chunk, and a zero-length chunk
additionally runs `on_complete` (move, then entry write). -/
def readOps : List (List Nat) → Nat → List FsOp
  | _, 0 => []
  | [], n + 1 => .writeChunk [] :: .moveStaging :: .writeEntry :: readOps [] n
  | c :: rest, n + 1 =>
    .writeChunk c ::
      ((if c = [] then [.moveStaging, .writeEntry] else []) ++ readOps rest n)

/-! ## `cached.util.Tee`, read-count model

For the completion-callback claim only `Tee.read` / `_write_chunk` matter:
each call obtains the reader's next chunk, writes it to the sink, and—on a
zero-length chunk—invokes `on_complete`.  The reader is embedded as the
list of chunks it has left; once exhausted it returns empty chunks
forever, as a real reader does at end-of-stream. -/

/-- The state of a `Tee` whose callback is observed by a counter. -/
structure TeeReadState where
  source : List (List Nat)
  sinkWritten : List (List Nat)
  completeCount : Nat
deriving DecidableEq, Repr

/-- One `tee.read()`: pop the reader's next chunk (empty at end-of-stream),
write it to the sink, and invoke `on_complete` iff the chunk is empty. -/
def teeReadStep (t : TeeReadState) : List Nat × TeeReadState :=
  match t.source with
  | [] =>
    ([], { t with sinkWritten := t.sinkWritten ++ [[]],
                  completeCount := t.completeCount + 1 })
  | c :: rest =>
    (c, { source := rest, sinkWritten := t.sinkWritten ++ [c],
          completeCount :=
            if c = [] then t.completeCount + 1 else t.completeCount })

/-- Perform `n` successive `tee.read()` calls. -/
def teeReadN (t : TeeReadState) : Nat → TeeReadState
  | 0 => t
  | n + 1 => teeReadN (teeReadStep t).2 n

/-! ## `cached.util.Tee`, byte-level model

For the per-operation tee claim all four read operations matter, so the
underlying reader is embedded at byte level (`reader` is its remaining
bytes) with Python's `read` / `readline` / `readlines` semantics.  The
sink is a binary file: writing `bytes` appends; writing any other value —
in particular the `list` that `readlines` produces — raises `TypeError`. -/

/-- Model of `reader.read(size)`: all remaining bytes when `size < 0`, else at most
`size` bytes.  Returns the bytes obtained and the rest. -/
def pyRead (data : List Nat) (size : Int) : List Nat × List Nat :=
  if size < 0 then (data, [])
  else (data.take size.toNat, data.drop size.toNat)

/-- Split off the first line (up to and including a newline byte `10`). -/
def pyLineSplit : List Nat → List Nat × List Nat
  | [] => ([], [])
  | b :: rest =>
    if b = 10 then ([10], rest)
    else
      let r := pyLineSplit rest
      (b :: r.1, r.2)

/-- Model of `reader.readline(size)`: the first line, truncated to `size` bytes when
`size ≥ 0`.  Returns the bytes obtained and the rest. -/
def pyReadline (data : List Nat) (size : Int) : List Nat × List Nat :=
  let window := if size < 0 then data else data.take size.toNat
  let line := (pyLineSplit window).1
  (line, data.drop line.length)

/-- All lines of the remaining bytes (each line keeps its newline; a final
unterminated line is included). -/
def pyAllLinesAux : List Nat → List Nat → List (List Nat)
  | acc, [] => if acc = [] then [] else [acc.reverse]
  | acc, b :: rest =>
    if b = 10 then (acc.reverse ++ [10]) :: pyAllLinesAux [] rest
    else pyAllLinesAux (b :: acc) rest

/-- Model of `reader.readlines()` with no effective hint. -/
def pyAllLines (data : List Nat) : List (List Nat) :=
  pyAllLinesAux [] data

/-- Keep lines while the running total of bytes is below the hint budget
(the line that reaches the budget is included). -/
def takeByHintAux : Nat → List (List Nat) → List (List Nat)
  | _, [] => []
  | budget, l :: rest =>
    if budget ≤ l.length then [l]
    else l :: takeByHintAux (budget - l.length) rest

/-- Model of `reader.readlines(hint)`: all lines when `hint ≤ 0`, else lines until
their total size reaches `hint`.  Returns the lines and the rest. -/
def pyReadlines (data : List Nat) (hint : Int) : List (List Nat) × List Nat :=
  let lines :=
    if hint ≤ 0 then pyAllLines data else takeByHintAux hint.toNat (pyAllLines data)
  (lines, data.drop lines.flatten.length)

/-- A Python value passed to the sink's `write`. -/
inductive WVal where
  /-- A `bytes` object. -/
  | bytes (b : List Nat)
  /-- A `list` of `bytes` objects (what `readlines` returns). -/
  | blist (ls : List (List Nat))
deriving DecidableEq, Repr

/-- Byte-level tee state: the underlying reader's remaining bytes, the bytes
the sink has accepted, and the `on_complete` invocation count. -/
structure TeeByte where
  reader : List Nat
  sink : List Nat
  completeCount : Nat
deriving DecidableEq, Repr

/-- Model of `Tee._write_chunk`: `writer.write(chunk)` — `TypeError` for a non-bytes
chunk on a binary sink — then `on_complete` iff the chunk is falsy, then
the chunk is returned. -/
def teeWriteChunk (t : TeeByte) (v : WVal) : Except PyErr (WVal × TeeByte) :=
  match v with
  | .blist _ => .error .typeError
  | .bytes b =>
    let t' := { t with sink := t.sink ++ b }
    if b = [] then .ok (v, { t' with completeCount := t'.completeCount + 1 })
    else .ok (v, t')

/-- Model of `Tee.read(size)`. -/
def teeByteRead (t : TeeByte) (size : Int) : Except PyErr (WVal × TeeByte) :=
  let r := pyRead t.reader size
  teeWriteChunk { t with reader := r.2 } (.bytes r.1)

/-- Model of `Tee.readall()`. -/
def teeByteReadall (t : TeeByte) : Except PyErr (WVal × TeeByte) :=
  let r := pyRead t.reader (-1)
  teeWriteChunk { t with reader := r.2 } (.bytes r.1)

/-- Model of `Tee.readline(size)`. -/
def teeByteReadline (t : TeeByte) (size : Int) : Except PyErr (WVal × TeeByte) :=
  let r := pyReadline t.reader size
  teeWriteChunk { t with reader := r.2 } (.bytes r.1)

/-- Model of `Tee.readlines(hint)`: the list of lines obtained from the reader is
passed as-is to `_write_chunk`, hence to the sink's `write`. -/
def teeByteReadlines (t : TeeByte) (hint : Int) : Except PyErr (WVal × TeeByte) :=
  let r := pyReadlines t.reader hint
  teeWriteChunk { t with reader := r.2 } (.blist r.1)

/-! ## `cached.cache.HttpAwareCache` -/

/-- Model of `HttpAwareCache._is_cachable_status_code`: `status in (200, 203, 300, 301,)`. -/
def isCachableStatusCode (status : Int) : Bool :=
  status == 200 || status == 203 || status == 300 || status == 301

/-- Model of `HttpAwareCache._is_cachable_method`: `method in {'GET'}`. -/
def isCachableMethod (method : String) : Bool :=
  method == "GET"

/-- Accumulator loop for Python's `str.split(',')`. -/
def splitCommaAux : List Char → List Char → List String
  | acc, [] => [String.mk acc.reverse]
  | acc, c :: rest =>
    if c = ',' then String.mk acc.reverse :: splitCommaAux [] rest
    else splitCommaAux (c :: acc) rest

/-- Python's `s.split(',')`: the comma-separated pieces of `s` (always at
least one piece; `''.split(',') == ['']`). -/
def splitComma (s : String) : List String :=
  splitCommaAux [] s.data

/-- Model of `entry.response.headers.get('Vary', []).split(',')` — when the `Vary`
key is present its string value is split on `','`; when it is absent the
`dict.get` default `[]` (a Python `list`) is returned and `.split` raises
`AttributeError`, which the source does not catch. -/
def varyHeaderKeys (responseHeaders : Headers) : Except PyErr (List String) :=
  match hFind responseHeaders "Vary" with
  | some s => .ok (splitComma s)
  | none => .error .attributeError

/-- The per-key `Vary` loop of `HttpAwareCache.get`: each named header must
be present in the stored request's headers, present in the incoming
request's headers, and have equal values in both; any failure returns a
miss. -/
def varyKeysMatch (keys : List String) (storedHeaders incomingHeaders : Headers) : Bool :=
  match keys with
  | [] => true
  | k :: rest =>
    match hFind storedHeaders k with
    | none => false
    | some expected =>
      match hFind incomingHeaders k with
      | none => false
      | some actual =>
        if expected = actual then varyKeysMatch rest storedHeaders incomingHeaders
        else false

/-- Model of `HttpAwareCache.get`, applied to the result of the delegate lookup:
miss propagation, the status and method checks, then the `Vary` checks.
`.error` embeds an uncaught Python exception escaping the call. -/
def httpAwareGet (delegateResult : Option CacheEntry) (request : Request) :
    Except PyErr (Option CacheEntry) :=
  match delegateResult with
  | none => .ok none
  | some entry =>
    if !isCachableStatusCode entry.response.status then .ok none
    else if !isCachableMethod entry.request.method then .ok none
    else
      match varyHeaderKeys entry.response.headers with
      | .error e => .error e
      | .ok keys =>
        if varyKeysMatch keys entry.request.headers request.headers then .ok (some entry)
        else .ok none

/-- Model of `HttpAwareCache.add`, with the delegate's `add` abstracted as a function.
The second component records the delegate invocations made (argument pairs,
in order), so that "without invoking the delegate" and "invokes the
delegate's add exactly once with the same arguments" are expressible. -/
def httpAwareAdd (delegateAdd : Request → Response → Option CacheEntry)
    (request : Request) (response : Response) :
    Option CacheEntry × List (Request × Response) :=
  if !isCachableStatusCode response.status then (none, [])
  else if !isCachableMethod request.method then (none, [])
  else (delegateAdd request response, [(request, response)])

/-! ## The composed cache (`HttpAwareCache` over `FileCache`)

This is the composition `cached.adapter.create` builds:
`HttpAwareCache(FileCache(directory, 5))`. -/

/-- Operation `get` on the composed cache: the `FileCache` lookup, filtered by the
HTTP policy.  Returns the policy's outcome and the filesystem after the
lookup. -/
def composedGet (levels : Nat) (fs : FS) (request : Request) :
    Except PyErr (Option CacheEntry) × FS :=
  let r := fileCacheGet levels fs request
  (httpAwareGet r.1 request, r.2)

/-- Operation `add` on the composed cache: the policy's status and method checks, then
delegation to `FileCache.add`.  `.ok (fs, none)` is a policy refusal
(nothing stored, delegate not invoked). -/
def composedAdd (levels : Nat) (randHex : String) (fs : FS)
    (request : Request) (response : Response) :
    Except (PyErr × FS) (FS × Option AddPending) :=
  if !isCachableStatusCode response.status then .ok (fs, none)
  else if !isCachableMethod request.method then .ok (fs, none)
  else
    match fileCacheAdd levels randHex fs request response with
    | .error e => .error e
    | .ok (fs', p) => .ok (fs', some p)

/-- The full entry-file path relative to the cache root directory
(`self.__entry_directory / self._get_path(request.uri)`). -/
def entryFilePath (levels : Nat) (uri : String) : PathKey :=
  "entries" :: getPath levels uri

/-! ## Helper lemmas -/

/-- Function `clamp` computes the median of `(0, value, 20)`. -/
theorem clamp_eq_median (v mn mx : Int) : clamp v mn mx = min 20 (max 0 v) := by
  unfold clamp sort3
  split_ifs <;> simp [min_def, max_def] <;> split_ifs <;> omega

/-- The digest always has 64 characters. -/
theorem sha256hex_length (s : String) : (sha256hex s).length = 64 := by
  have hx : ∀ w : Nat, (hex8 w).length = 8 := by
    intro w
    simp [hex8, String.length]
  simp [sha256hex, String.length_append, hx]

/-- The completion counter after `n` reads, generalized over the initial
state. -/
theorem teeReadN_count (n : Nat) :
    ∀ (chunks : List (List Nat)) (w : List (List Nat)) (k : Nat),
      (∀ c ∈ chunks, c ≠ []) →
      (teeReadN ⟨chunks, w, k⟩ n).completeCount = k + (n - chunks.length) := by
  induction n with
  | zero => intro chunks w k _; simp [teeReadN]
  | succ n ih =>
    intro chunks w k h
    match chunks with
    | [] =>
      simp only [teeReadN, teeReadStep]
      rw [ih [] _ (k + 1) (by simp)]
      simp only [List.length_nil]
      omega
    | c :: rest =>
      have hc : c ≠ [] := h c (by simp)
      simp only [teeReadN, teeReadStep, if_neg hc]
      rw [ih rest _ k (fun c' hc' => h c' (by simp [hc']))]
      simp [Nat.succ_sub_succ]

/-- When every `Vary` key is present in a header set, matching the set
against itself succeeds. -/
theorem varyKeysMatch_self (keys : List String) (h : Headers)
    (hk : ∀ k ∈ keys, (hFind h k).isSome) :
    varyKeysMatch keys h h = true := by
  induction keys with
  | nil => rfl
  | cons k rest ih =>
    obtain ⟨v, hv⟩ := Option.isSome_iff_exists.mp (hk k (by simp))
    simp [varyKeysMatch, hv, ih (fun k' hk' => hk k' (by simp [hk']))]

/-- Draining a tee over nonempty chunks delivers their concatenation and
finalizes with the full bytes staged. -/
theorem drainFrom_spec (p : AddPending) (chunks : List (List Nat)) :
    ∀ (es : List (PathKey × EntryFileData)) (bs : List (PathKey × List Nat))
      (s : List Nat),
      (∀ c ∈ chunks, c ≠ []) →
      drainFrom ⟨es, bs, some s⟩ p chunks
        = (chunks.flatten, finalize ⟨es, bs, some (s ++ chunks.flatten)⟩ p) := by
  induction chunks with
  | nil => intro es bs s _; simp [drainFrom, stagingAppend]
  | cons c rest ih =>
    intro es bs s h
    have hc : c ≠ [] := h c (by simp)
    simp only [drainFrom, if_neg hc, stagingAppend, Option.map_some']
    rw [ih es bs (s ++ c) (fun c' h' => h c' (by simp [h']))]
    simp [List.append_assoc]

/-- In the operations emitted by any number of duplicator reads, every
entry-record write is strictly preceded by the staging-file move. -/
theorem readOps_writeEntry_after_move :
    ∀ (n : Nat) (src : List (List Nat)) (i : Nat),
      (readOps src n).get? i = some .writeEntry →
      ∃ j, j < i ∧ (readOps src n).get? j = some .moveStaging := by
  intro n
  induction n with
  | zero => intro src i h; simp [readOps] at h
  | succ n ih =>
    intro src i h
    match src with
    | [] =>
      simp only [readOps] at h ⊢
      match i with
      | 0 => simp at h
      | 1 => simp at h
      | 2 => exact ⟨1, by omega, by simp⟩
      | i + 3 =>
        simp only [List.get?_cons_succ] at h
        obtain ⟨j, hj, hmv⟩ := ih [] i h
        exact ⟨j + 3, by omega, by simpa using hmv⟩
    | c :: rest =>
      by_cases hc : c = []
      · subst hc
        simp only [readOps, if_pos rfl, List.cons_append, List.nil_append] at h ⊢
        match i with
        | 0 => simp at h
        | 1 => simp at h
        | 2 => exact ⟨1, by omega, by simp⟩
        | i + 3 =>
          simp only [List.get?_cons_succ] at h
          obtain ⟨j, hj, hmv⟩ := ih rest i h
          exact ⟨j + 3, by omega, by simpa using hmv⟩
      · simp only [readOps, if_neg hc, List.nil_append] at h ⊢
        match i with
        | 0 => simp at h
        | i + 1 =>
          simp only [List.get?_cons_succ] at h
          obtain ⟨j, hj, hmv⟩ := ih rest i h
          exact ⟨j + 1, by omega, by simpa using hmv⟩

/-- After finalize, the permanent body file's contents survive every
further reachable state (the next post-end-of-stream read appends nothing
and then dies inside `shutil.move`). -/
theorem applyOps_post (p : AddPending) (bodyVal : List Nat) :
    ∀ (n k : Nat) (fs fs' : FS),
      fs.staging = none →
      fsFind fs.bodies p.bodyPath = some bodyVal →
      applyOps p fs ((readOps ([] : List (List Nat)) n).take k) = some fs' →
      fsFind fs'.bodies p.bodyPath = some bodyVal := by
  intro n k fs fs' hst hb h
  match n with
  | 0 =>
    simp only [readOps, List.take_nil, applyOps, Option.some.injEq] at h
    rw [← h]; exact hb
  | n + 1 =>
    match k with
    | 0 =>
      simp only [readOps, List.take_zero, applyOps, Option.some.injEq] at h
      rw [← h]; exact hb
    | 1 =>
      simp only [readOps, List.take_succ_cons, List.take_zero, applyOps,
        applyOp, hst, hb, Option.some.injEq] at h
      rw [← h]
      simp [fsFind]
    | k + 2 =>
      simp only [readOps, List.take_succ_cons, applyOps, applyOp, hst, hb] at h
      exact Option.noConfusion h

/-- Invariant along every reachable filesystem state of a drain from a
fresh store slot: an entry record is visible only with the complete body
in place, and with no end-of-stream read nothing but the staging file
changes. -/
theorem applyOps_pre (p : AddPending) (full : List Nat) :
    ∀ (n : Nat) (rest : List (List Nat)) (es : List (PathKey × EntryFileData))
      (bs : List (PathKey × List Nat)) (s : List Nat) (k : Nat) (fs' : FS),
      (∀ c ∈ rest, c ≠ []) →
      fsFind es p.entryPath = none →
      fsFind bs p.bodyPath = none →
      s ++ rest.flatten = full →
      applyOps p ⟨es, bs, some s⟩ ((readOps rest n).take k) = some fs' →
        ((fsFind fs'.entries p.entryPath).isSome →
            fsFind fs'.bodies p.bodyPath = some full)
        ∧ (n ≤ rest.length →
            fs'.entries = es ∧ fs'.bodies = bs ∧ fs'.staging.isSome) := by
  intro n
  induction n with
  | zero =>
    intro rest es bs s k fs' hne hes hbs hfull h
    simp only [readOps, List.take_nil, applyOps, Option.some.injEq] at h
    rw [← h]
    exact ⟨fun hsome => by simp [hes] at hsome, fun _ => ⟨rfl, rfl, rfl⟩⟩
  | succ n ih =>
    intro rest es bs s k fs' hne hes hbs hfull h
    match rest with
    | c :: rest' =>
      have hc : c ≠ [] := hne c (by simp)
      simp only [readOps, if_neg hc, List.nil_append] at h
      match k with
      | 0 =>
        simp only [List.take_zero, applyOps, Option.some.injEq] at h
        rw [← h]
        exact ⟨fun hsome => by simp [hes] at hsome, fun _ => ⟨rfl, rfl, rfl⟩⟩
      | k + 1 =>
        simp only [List.take_succ_cons, applyOps, applyOp] at h
        have hr := ih rest' es bs (s ++ c) k fs'
          (fun c' h' => hne c' (by simp [h'])) hes hbs
          (by rw [← hfull]; simp) h
        exact ⟨hr.1, fun hn => hr.2 (by simpa using Nat.le_of_succ_le_succ hn)⟩
    | [] =>
      have hs : s = full := by simpa using hfull
      subst hs
      simp only [readOps] at h
      refine ⟨?_, fun hn => by simp at hn⟩
      match k with
      | 0 =>
        simp only [List.take_zero, applyOps, Option.some.injEq] at h
        rw [← h]
        intro hsome; simp [hes] at hsome
      | 1 =>
        simp only [List.take_succ_cons, List.take_zero, applyOps, applyOp,
          Option.some.injEq] at h
        rw [← h]
        intro hsome; simp [hes] at hsome
      | 2 =>
        simp only [List.take_succ_cons, List.take_zero, applyOps, applyOp,
          Option.some.injEq] at h
        rw [← h]
        intro hsome; simp [hes] at hsome
      | 3 =>
        simp only [List.take_succ_cons, List.take_zero, applyOps, applyOp,
          Option.some.injEq] at h
        rw [← h]
        intro _
        simp [fsFind]
      | k + 4 =>
        simp only [List.take_succ_cons, applyOps, applyOp] at h
        intro _
        have hb3 : fsFind ((p.bodyPath, s ++ []) :: bs) p.bodyPath
            = some (s ++ []) := by simp [fsFind]
        have hpost := applyOps_post p (s ++ []) n (k + 1) _ fs' rfl hb3 h
        simpa using hpost

end Cached

namespace Cached

/-! ## Claim theorems -/

/-- C1 counterexample: two (request, response) pairs accepted by the
cacheability policy (status 200, method GET) for which add-drain-get does
not return the stored entry as a hit: with no `Vary` response header the
composed `get` raises `AttributeError`; with `Vary: X` naming a header the
request lacks, the composed `get` returns a miss. -/
theorem C1_counterexample_roundtrip_fails :
    (∃ fs₁ p,
        composedAdd 5 "ff" ⟨[], [], none⟩ ⟨"GET", "u", []⟩
            ⟨200, "OK", [], [[104]]⟩
          = .ok (fs₁, some p)
        ∧ (composedGet 5 (drainAll fs₁ p).2 ⟨"GET", "u", []⟩).1
            = .error .attributeError)
    ∧ (∃ fs₁ p,
        composedAdd 5 "ff" ⟨[], [], none⟩ ⟨"GET", "u", []⟩
            ⟨200, "OK", [("Vary", "X")], [[104]]⟩
          = .ok (fs₁, some p)
        ∧ (composedGet 5 (drainAll fs₁ p).2 ⟨"GET", "u", []⟩).1
            = .ok none) := by
  constructor
  · refine ⟨⟨[], [], some []⟩,
      ⟨⟨"GET", "u", []⟩, 200, "OK", [], [[104]], getPath 5 "u", splitPath 5 "ff",
       serializeEntry ⟨"GET", "u", []⟩ ⟨200, "OK", [], [[104]]⟩ (splitPath 5 "ff")⟩,
      ?_, ?_⟩
    · simp [composedAdd, isCachableStatusCode, isCachableMethod, fileCacheAdd,
        fsFind, serializeEntry]
    · rw [drainAll, drainFrom_spec _ _ _ _ _ (by decide)]
      simp [finalize, composedGet, fileCacheGet, loadEntry, fsFind,
        serializeEntry, httpAwareGet, isCachableStatusCode, isCachableMethod,
        varyHeaderKeys, hFind]
  · refine ⟨⟨[], [], some []⟩,
      ⟨⟨"GET", "u", []⟩, 200, "OK", [("Vary", "X")], [[104]], getPath 5 "u",
       splitPath 5 "ff",
       serializeEntry ⟨"GET", "u", []⟩ ⟨200, "OK", [("Vary", "X")], [[104]]⟩
         (splitPath 5 "ff")⟩,
      ?_, ?_⟩
    · simp [composedAdd, isCachableStatusCode, isCachableMethod, fileCacheAdd,
        fsFind, serializeEntry]
    · rw [drainAll, drainFrom_spec _ _ _ _ _ (by decide)]
      simp [finalize, composedGet, fileCacheGet, loadEntry, fsFind,
        serializeEntry, httpAwareGet, isCachableStatusCode, isCachableMethod,
        varyHeaderKeys, hFind, varyKeysMatch, splitComma, splitCommaAux]

/-- C1 amended: for every (request, response) pair accepted by the
cacheability policy *whose response headers contain a `Vary` key each of
whose comma-separated names occurs in the request's headers*, and a fresh
store slot, `add` on the composed cache followed by a full read of the
returned body followed by `get` with the same request returns a hit whose
status, reason and headers equal the original response's and whose body
bytes are the original body bytes. -/
theorem C1_roundtrip_amended (levels : Nat) (randHex : String) (fs : FS)
    (req : Request) (res : Response)
    (hstatus : isCachableStatusCode res.status = true)
    (hmethod : req.method = "GET")
    (hfresh : fsFind fs.entries (getPath levels req.uri) = none)
    (hbody : fsFind fs.bodies (splitPath levels randHex) = none)
    (hchunks : ∀ c ∈ res.body, c ≠ [])
    (vs : String)
    (hvary : hFind res.headers "Vary" = some vs)
    (hnames : ∀ k ∈ splitComma vs, (hFind req.headers k).isSome) :
    ∃ fs₁ p,
      composedAdd levels randHex fs req res = .ok (fs₁, some p)
        ∧ (drainAll fs₁ p).1 = res.body.flatten
        ∧ (composedGet levels (drainAll fs₁ p).2 req).1
            = .ok (some ⟨req, ⟨res.status, res.reason, res.headers,
                res.body.flatten⟩⟩) := by
  obtain ⟨es, bs, st⟩ := fs
  obtain ⟨m, u, hdrs⟩ := req
  have hm : m = "GET" := hmethod
  subst hm
  refine ⟨⟨es, bs, some []⟩,
    ⟨⟨"GET", u, hdrs⟩, res.status, res.reason, res.headers, res.body,
     getPath levels u, splitPath levels randHex,
     serializeEntry ⟨"GET", u, hdrs⟩ res (splitPath levels randHex)⟩, ?_, ?_, ?_⟩
  · simp only [composedAdd, hstatus, Bool.not_true, Bool.false_eq_true,
      if_false, isCachableMethod, hmethod, beq_self_eq_true, fileCacheAdd]
    simp [hfresh, hbody]
  · rw [drainAll, drainFrom_spec _ _ _ _ _ hchunks]
  · rw [drainAll, drainFrom_spec _ _ _ _ _ hchunks]
    simp only [finalize, Option.getD_some, List.nil_append]
    simp [composedGet, fileCacheGet, loadEntry, fsFind, serializeEntry,
      httpAwareGet, hstatus, isCachableMethod, hmethod, varyHeaderKeys, hvary,
      varyKeysMatch_self _ _ hnames]

/-- Witness for `C1_roundtrip_amended` at a concrete input. -/
theorem C1_roundtrip_amended_witness :
    ∃ fs₁ p,
      composedAdd 5 "ff" ⟨[], [], none⟩ ⟨"GET", "u", [("X", "1")]⟩
          ⟨200, "OK", [("Vary", "X")], [[104, 105]]⟩
        = .ok (fs₁, some p)
        ∧ (drainAll fs₁ p).1 = List.flatten [[104, 105]]
        ∧ (composedGet 5 (drainAll fs₁ p).2 ⟨"GET", "u", [("X", "1")]⟩).1
            = .ok (some ⟨⟨"GET", "u", [("X", "1")]⟩,
                ⟨200, "OK", [("Vary", "X")], List.flatten [[104, 105]]⟩⟩) :=
  C1_roundtrip_amended 5 "ff" ⟨[], [], none⟩ ⟨"GET", "u", [("X", "1")]⟩
    ⟨200, "OK", [("Vary", "X")], [[104, 105]]⟩ (by decide) rfl rfl rfl
    (by decide) "X" rfl (by decide)

/-- C10: `clamp(v, min, max)` returns the median of `(0, v, 20)`, ignoring
the supplied `min` and `max` arguments entirely; e.g. `clamp(50, 0, 100)`
returns 20, not the result of clamping 50 into `[0, 100]` (which is 50). -/
theorem C10_clamp_ignores_bounds :
    (∀ v mn mx mn' mx' : Int,
        clamp v mn mx = min 20 (max 0 v) ∧ clamp v mn mx = clamp v mn' mx')
      ∧ clamp 50 0 100 = 20
      ∧ clamp 50 0 100 ≠ min 100 (max 0 50) := by
  refine ⟨fun v mn mx mn' mx' => ⟨clamp_eq_median v mn mx, ?_⟩, by decide, by decide⟩
  rw [clamp_eq_median, clamp_eq_median]

/-- C9: for every URI and configured level count `L`, the entry file path is
`entries/<d1>/…/<dk>/<rest>` where `d1..dk` are the first `k` characters of
the SHA-256 hex digest of the URI (each a single-character component),
`rest` is the remaining digest characters, and `k = min(20, max(0, L))`;
the digest has 64 characters, and `cached.adapter.create` passes `L = 5`. -/
theorem C9_entry_path_shape (L : Int) (uri : String) :
    entryFilePath (cacheDirectoryLevels L) uri
        = "entries"
            :: ((sha256hex uri).data.take (cacheDirectoryLevels L)).map String.singleton
            ++ [String.mk ((sha256hex uri).data.drop (cacheDirectoryLevels L))]
      ∧ (cacheDirectoryLevels L : Int) = min 20 (max 0 L)
      ∧ (sha256hex uri).length = 64
      ∧ adapterCreateLevels = 5 := by
  refine ⟨?_, ?_, sha256hex_length uri, rfl⟩
  · simp [entryFilePath, getPath, splitPath, String.take_eq, String.drop_eq]
  · rw [cacheDirectoryLevels, clamp_eq_median]
    omega

/-- C7: `HttpAwareCache.add` returns absent without invoking the delegate
whenever the response status is not in {200, 203, 300, 301} or the request
method is not GET; otherwise it invokes the delegate's `add` exactly once
with the same arguments and returns its result. -/
theorem C7_add_policy_gating (d : Request → Response → Option CacheEntry)
    (req : Request) (res : Response) :
    httpAwareAdd d req res =
      if isCachableStatusCode res.status ∧ isCachableMethod req.method then
        (d req res, [(req, res)])
      else (none, []) := by
  unfold httpAwareAdd
  by_cases h1 : isCachableStatusCode res.status <;>
    by_cases h2 : isCachableMethod req.method <;> simp [h1, h2]

/-- C3: contrary to the claim, a stored entry passing the status and method
checks whose response headers have no `Vary` key does not produce a hit:
`headers.get('Vary', [])` yields the list default and `.split(',')` raises
`AttributeError`, which escapes `HttpAwareCache.get`. -/
theorem C3_vary_absent_raises :
    httpAwareGet
        (some ⟨⟨"GET", "u", []⟩, ⟨200, "OK", [("ETag", "x")], [1, 2]⟩⟩)
        ⟨"GET", "u", []⟩
      = .error .attributeError := by
  rfl

/-- C6: contrary to the claim for `readlines`, the list of lines obtained
from the underlying reader is passed as a Python `list` (not bytes) to the
sink's single `write` call, which raises `TypeError` on a binary sink; no
bytes reach the sink and nothing is returned. -/
theorem C6_readlines_type_error :
    teeByteReadlines ⟨[97, 10, 98], [], 0⟩ (-1) = .error .typeError := by
  rfl

/-- C5 counterexample: with a one-chunk source, three reads observe
end-of-stream twice and the completion callback fires twice — not exactly
once — because `_write_chunk` has no single-fire guard. -/
theorem C5_counterexample_double_fire :
    (teeReadN ⟨[[7]], [], 0⟩ 3).completeCount = 2
      ∧ (teeReadN ⟨[[7]], [], 0⟩ 3).completeCount ≠ 1 := by
  decide

/-- C5 amended: the completion callback fires at every zero-length read,
not only the first: after `n` reads against a source of nonempty chunks
the callback has fired `n - chunks.length` times — exactly once when the
consumer stops at the first zero-length read, and once more for every
further read after end-of-stream. -/
theorem C5_complete_count (chunks : List (List Nat)) (n : Nat)
    (h : ∀ c ∈ chunks, c ≠ []) :
    (teeReadN ⟨chunks, [], 0⟩ n).completeCount = n - chunks.length := by
  rw [teeReadN_count n chunks [] 0 h]
  omega

/-- Witness for `C5_complete_count` at a concrete input. -/
theorem C5_complete_count_witness :
    (∀ c ∈ [[7]], c ≠ ([] : List Nat))
      ∧ (teeReadN ⟨[[7]], [], 0⟩ 3).completeCount = 3 - List.length [[7]] :=
  ⟨by decide, C5_complete_count [[7]] 3 (by decide)⟩

/-- C2: in every execution of `FileCache.add`, the entry record is written
strictly after the staging file is moved into the permanent body location
(every `writeEntry` in the emitted operation trace is preceded by a
`moveStaging`); in every reachable filesystem state a visible entry record
implies the complete body blob is in place; and if the duplicator is never
read to end-of-stream, no entry file and no permanent body file is ever
created — only the staging file exists. -/
theorem C2_entry_strictly_after_body (levels : Nat) (randHex : String)
    (fs : FS) (req : Request) (res : Response) (fs₁ : FS) (p : AddPending)
    (hchunks : ∀ c ∈ res.body, c ≠ [])
    (hadd : fileCacheAdd levels randHex fs req res = .ok (fs₁, p)) :
    (∀ n i, (readOps p.source n).get? i = some FsOp.writeEntry →
        ∃ j, j < i ∧ (readOps p.source n).get? j = some FsOp.moveStaging)
      ∧ (∀ n k fs', applyOps p fs₁ ((readOps p.source n).take k) = some fs' →
          (fsFind fs'.entries p.entryPath).isSome →
          fsFind fs'.bodies p.bodyPath = some res.body.flatten)
      ∧ (∀ n fs', n ≤ res.body.length →
          applyOps p fs₁ (readOps p.source n) = some fs' →
          fs'.entries = fs.entries ∧ fs'.bodies = fs.bodies
            ∧ fs'.staging.isSome) := by
  obtain ⟨es, bs, st⟩ := fs
  simp only [fileCacheAdd] at hadd
  by_cases h1 : (fsFind es (getPath levels req.uri)).isSome
  · rw [if_pos h1] at hadd; exact Except.noConfusion hadd
  · rw [if_neg h1] at hadd
    by_cases h2 : (fsFind bs (splitPath levels randHex)).isSome
    · rw [if_pos h2] at hadd; exact Except.noConfusion hadd
    · rw [if_neg h2] at hadd
      have hes : fsFind es (getPath levels req.uri) = none := by
        cases hx : fsFind es (getPath levels req.uri) with
        | none => rfl
        | some v => exact absurd (by simp [hx]) h1
      have hbsn : fsFind bs (splitPath levels randHex) = none := by
        cases hx : fsFind bs (splitPath levels randHex) with
        | none => rfl
        | some v => exact absurd (by simp [hx]) h2
      simp only [Except.ok.injEq, Prod.mk.injEq] at hadd
      obtain ⟨hfs1, hp⟩ := hadd
      subst hfs1
      subst hp
      refine ⟨fun n i h => readOps_writeEntry_after_move n _ i h, ?_, ?_⟩
      · intro n k fs' h hsome
        exact (applyOps_pre _ res.body.flatten n res.body es bs [] k fs'
          hchunks hes hbsn (by simp) h).1 hsome
      · intro n fs' hn h
        exact (applyOps_pre _ res.body.flatten n res.body es bs []
          ((readOps res.body n).length) fs' hchunks hes hbsn (by simp)
          (by rw [List.take_length]; exact h)).2 hn

/-- Witness for `C2_entry_strictly_after_body` at a concrete input. -/
theorem C2_entry_strictly_after_body_witness :
    (∀ c ∈ [[9]], c ≠ ([] : List Nat))
      ∧ fileCacheAdd 5 "ff" ⟨[], [], none⟩ ⟨"GET", "u", []⟩ ⟨200, "OK", [], [[9]]⟩
          = .ok (⟨[], [], some []⟩,
              ⟨⟨"GET", "u", []⟩, 200, "OK", [], [[9]], getPath 5 "u",
               splitPath 5 "ff",
               serializeEntry ⟨"GET", "u", []⟩ ⟨200, "OK", [], [[9]]⟩
                 (splitPath 5 "ff")⟩)
      ∧ ((∀ n i, (readOps [[9]] n).get? i = some FsOp.writeEntry →
            ∃ j, j < i ∧ (readOps [[9]] n).get? j = some FsOp.moveStaging)
        ∧ (∀ n k fs',
            applyOps
                ⟨⟨"GET", "u", []⟩, 200, "OK", [], [[9]], getPath 5 "u",
                 splitPath 5 "ff",
                 serializeEntry ⟨"GET", "u", []⟩ ⟨200, "OK", [], [[9]]⟩
                   (splitPath 5 "ff")⟩
                ⟨[], [], some []⟩ ((readOps [[9]] n).take k) = some fs' →
            (fsFind fs'.entries (getPath 5 "u")).isSome →
            fsFind fs'.bodies (splitPath 5 "ff") = some (List.flatten [[9]]))
        ∧ (∀ n fs', n ≤ List.length [[9]] →
            applyOps
                ⟨⟨"GET", "u", []⟩, 200, "OK", [], [[9]], getPath 5 "u",
                 splitPath 5 "ff",
                 serializeEntry ⟨"GET", "u", []⟩ ⟨200, "OK", [], [[9]]⟩
                   (splitPath 5 "ff")⟩
                ⟨[], [], some []⟩ (readOps [[9]] n) = some fs' →
            fs'.entries = [] ∧ fs'.bodies = [] ∧ fs'.staging.isSome)) :=
  ⟨by decide, rfl,
   C2_entry_strictly_after_body 5 "ff" ⟨[], [], none⟩ ⟨"GET", "u", []⟩
     ⟨200, "OK", [], [[9]]⟩ _ _ (by decide) rfl⟩

/-- C8: when an entry file already exists at the derived path,
`FileCache.add` raises and leaves the filesystem unchanged — no entry is
overwritten and no staging or body file is created. -/
theorem C8_add_refuses_existing_entry (levels : Nat) (randHex : String)
    (fs : FS) (req : Request) (res : Response)
    (h : (fsFind fs.entries (getPath levels req.uri)).isSome) :
    fileCacheAdd levels randHex fs req res
      = .error (.refuseOverwriteEntry, fs) := by
  unfold fileCacheAdd
  simp [h]

/-- Witness for `C8_add_refuses_existing_entry` at a concrete store. -/
theorem C8_add_refuses_existing_entry_witness :
    (fsFind (FS.mk [(getPath 5 "u", .invalid)] [] none).entries
        (getPath 5 "u")).isSome
      ∧ fileCacheAdd 5 "ff" ⟨[(getPath 5 "u", .invalid)], [], none⟩
          ⟨"GET", "u", []⟩ ⟨200, "OK", [], []⟩
        = .error (.refuseOverwriteEntry, ⟨[(getPath 5 "u", .invalid)], [], none⟩) :=
  ⟨by simp [fsFind], C8_add_refuses_existing_entry 5 "ff" _ _ _ (by simp [fsFind])⟩

/-- C4: contrary to the claim, a structurally valid entry record whose
referenced body blob is missing is not purged: `FileCache.get` returns
absent but leaves the entry file in place, so a subsequent `add` for the
same key raises instead of succeeding. -/
theorem C4_missing_body_not_purged :
    fileCacheGet 5
        ⟨[(getPath 5 "u",
            .record ⟨some "GET", some "u", some [], some 200, some "OK",
                     some [], some ["b"]⟩)], [], none⟩
        ⟨"GET", "u", []⟩
      = (none,
         ⟨[(getPath 5 "u",
             .record ⟨some "GET", some "u", some [], some 200, some "OK",
                      some [], some ["b"]⟩)], [], none⟩)
      ∧ fileCacheAdd 5 "ff"
          ⟨[(getPath 5 "u",
              .record ⟨some "GET", some "u", some [], some 200, some "OK",
                       some [], some ["b"]⟩)], [], none⟩
          ⟨"GET", "u", []⟩ ⟨200, "OK", [], []⟩
        = .error (.refuseOverwriteEntry,
            ⟨[(getPath 5 "u",
                .record ⟨some "GET", some "u", some [], some 200, some "OK",
                         some [], some ["b"]⟩)], [], none⟩) := by
  constructor
  · simp [fileCacheGet, loadEntry, fsFind]
  · simp [fileCacheAdd, fsFind]

end Cached
